import Mathlib

/-!
# Gateway server: registry, session store and authentication gate

A shallow embedding of `server/server.go` (package `chserver`).

Conventions of the embedding.

* Go strings and byte slices that are only compared, stored or concatenated
  (user names, passwords, session identifiers, URLs) are Lean `String`s.
* A Go `error` is its message (`Error := String`); `nil` is `none`.
* Mutation through the receiver `s *Server` is explicit state passing: every
  method returns the server state after the call next to its Go results.
* `*settings.User` values are never `nil` in the registry or the session store
  (every insertion in `server.go` dereferences the user first), so a pointer to
  a user is modelled by the user value itself.
* Logging (`Infof`, `Debugf`) does not touch the registry or the session store
  and is left out; `log.Fatal` ends the process and is the `fatal` outcome.
-/

/-! ## Package `settings` (imported by `server.go`) -/

namespace settings

/-- A compiled address pattern (`*regexp.Regexp`), identified by the
expression it was compiled from. -/
structure Regexp where
  expr : String
deriving DecidableEq, Repr

/-- Modelled from the spec: the `User` record of the data model,
`{name, password, authorizedAddressPatterns}`; the Go type `settings.User`
is declared in another package, the field names are the ones `server.go` uses. -/
structure User where
  Name : String
  Pass : String
  Addrs : List Regexp
deriving DecidableEq, Repr

/-- Modelled from the spec: `settings.Users`, the "mapping from user name to
User" of the data model (the same type serves as session store, keyed by the
session identifier).  The Go map is represented by an association list whose
first entry for a key is the live one; every list is a valid representation. -/
structure Users where
  inner : List (String × User)
deriving DecidableEq, Repr

/-- Modelled from the spec: `settings.NewUsers()`, the empty mapping. -/
def NewUsers : Users := ⟨[]⟩

/-- Modelled from the spec: `Count() -> int`, the number of keys of the
mapping. -/
def Users.Len (u : Users) : Nat := ((u.inner.map Prod.fst).dedup).length

/-- Modelled from the spec: `Lookup(name) -> (User, found: bool)`; `none`
is `found = false`. -/
def Users.Get (u : Users) (key : String) : Option User := u.inner.lookup key

/-- Modelled from the spec: `Bind(sessionID, user)`: "records ownership;
overwrites any previous binding for the same id". -/
def Users.Set (u : Users) (key : String) (user : User) : Users :=
  ⟨(key, user) :: u.inner.filter (fun e => e.1 != key)⟩

/-- Modelled from the spec: `Delete (by name; no-op if absent)`. -/
def Users.Del (u : Users) (key : String) : Users :=
  ⟨u.inner.filter (fun e => e.1 != key)⟩

/-- Modelled from the spec: `Add (single insert)`; "name is unique within
the registry: a later add with the same name replaces the earlier entry". -/
def Users.AddUser (u : Users) (user : User) : Users := u.Set user.Name user

/-- Modelled from the spec: `Reset(users)`, "atomically replaces the entire
registry content": the new mapping is built from empty by entering the users
in sequence under their names, and then replaces the old one. -/
def Users.Reset (_u : Users) (users : List User) : Users :=
  users.foldl (fun m x => m.Set x.Name x) NewUsers

/-- The registry type `settings.UserIndex` embeds `*Users`; its logger and
configuration-file path are used only by `LoadUsers`, which is a parameter of
the model. -/
abbrev UserIndex := Users

/-- Modelled from the spec: `settings.NewUserIndex(logger)`, an empty
registry. -/
def NewUserIndex : UserIndex := NewUsers

end settings

/-! ## Package `chserver`: `server/server.go` -/

namespace chserver

open settings

/-- A Go `error`, identified by its message. -/
abbrev Error := String

/-- The TLS settings of `Config` (type `TLSConfig`, declared in another file of the package);
`server.go` only stores them. -/
structure TLSConfig where
  settings : List String
deriving DecidableEq, Repr

/-- The type `Config` of `server.go`; `KeepAlive` is a `time.Duration`
(an integer number of nanoseconds). -/
structure Config where
  KeySeed : String
  AuthFile : String
  Auth : String
  Proxy : String
  Socks5 : Bool
  Reverse : Bool
  KeepAlive : Int
  TLS : TLSConfig
deriving DecidableEq, Repr

/-- The fields of `url.URL` (Go standard library). -/
structure URL where
  Scheme : String
  Opaque : String
  Host : String
  Path : String
  RawPath : String
  RawQuery : String
  Fragment : String
deriving DecidableEq, Repr

/-- The part of `http.Request` a director can rewrite or must preserve:
method, URL, headers, body and the `Host` field. -/
structure Request where
  Method : String
  URL : URL
  Header : List (String × List String)
  Body : String
  Host : String
deriving DecidableEq, Repr

/-- The reverse proxy held by the server.  Its `Director` is the closure built
in `NewServer`, which captures the parsed target `u`; the closure is
represented by the captured value. -/
structure ReverseProxy where
  u : URL
deriving DecidableEq, Repr

/-- The closure assigned to `server.reverseProxy.Director` in `NewServer`:
`r.URL.Scheme = u.Scheme; r.URL.Host = u.Host; r.Host = u.Host`. -/
def ReverseProxy.Director (p : ReverseProxy) (r : Request) : Request :=
  let r1 : Request := { r with URL := { r.URL with Scheme := p.u.Scheme } }
  let r2 : Request := { r1 with URL := { r1.URL with Host := p.u.Host } }
  { r2 with Host := p.u.Host }

/-- An `ssh.Signer` as far as `server.go` uses it: it yields a public key. -/
structure Signer where
  PublicKey : String
deriving DecidableEq, Repr

/-- The fields of `ssh.ServerConfig` set by `NewServer`.  The password
callback is always the method `authUser` of the same server and is not
stored. -/
structure ServerConfig where
  ServerVersion : String
  hostKeys : List Signer
deriving DecidableEq, Repr

/-- The type `ssh.Permissions`; `authUser` only ever returns `nil`. -/
structure Permissions where
  CriticalOptions : List (String × String)
  Extensions : List (String × String)
deriving DecidableEq, Repr

/-- The two methods of `ssh.ConnMetadata` that `authUser` calls. -/
structure ConnMetadata where
  User : String
  SessionID : String
deriving DecidableEq, Repr

/-- Functions and values `server.go` takes from other packages, as parameters
of the model: `regexp.Compile`, `settings.UserAllowAll`, `settings.ParseAuth`,
`UserIndex.LoadUsers` (result: the registry after a successful load),
`ccrypto.GenerateKey`, `ssh.ParsePrivateKey`, `ccrypto.FingerprintKey`,
`chshare.ProtocolVersion`, `url.Parse` and the logger method `Errorf` applied
to a format and a URL. -/
structure Env where
  Compile : String → Except Error Regexp
  UserAllowAll : Regexp
  ParseAuth : String → String × String
  LoadUsers : UserIndex → String → Except Error UserIndex
  GenerateKey : String → Except Error String
  ParsePrivateKey : String → Except Error Signer
  FingerprintKey : String → String
  ProtocolVersion : String
  urlParse : String → Except Error URL
  Errorf : String → URL → Error

/-- The type `Server` of `server.go`, without the embedded logger and the
HTTP server handle. -/
structure Server where
  config : Config
  fingerprint : String
  reverseProxy : Option ReverseProxy
  sessCount : Int
  sessions : Users
  sshConfig : ServerConfig
  users : UserIndex
deriving DecidableEq, Repr

/-- How a call of `NewServer` ends: with a server, with a returned error, or
with `log.Fatal` (the process exits). -/
inductive Outcome where
  | ok (server : Server)
  | error (err : Error)
  | fatal (msg : String)
deriving DecidableEq, Repr

/-- The function `NewServer` of `server.go`. -/
def NewServer (env : Env) (c : Config) : Outcome :=
  let users0 : UserIndex := NewUserIndex
  match (if c.AuthFile ≠ "" then env.LoadUsers users0 c.AuthFile else Except.ok users0) with
  | Except.error err => Outcome.error err
  | Except.ok users1 =>
    let users2 : UserIndex :=
      if c.Auth ≠ "" then
        let u : User := ⟨(env.ParseAuth c.Auth).1, (env.ParseAuth c.Auth).2, [env.UserAllowAll]⟩
        if u.Name ≠ "" then users1.AddUser u else users1
      else users1
    match env.GenerateKey c.KeySeed with
    | Except.error _ => Outcome.fatal "Failed to generate key"
    | Except.ok key =>
      match env.ParsePrivateKey key with
      | Except.error _ => Outcome.fatal "Failed to parse key"
      | Except.ok priv =>
        let server : Server :=
          ⟨c, env.FingerprintKey priv.PublicKey, none, 0, NewUsers,
            ⟨"SSH-" ++ env.ProtocolVersion ++ "-server", [priv]⟩, users2⟩
        if c.Proxy ≠ "" then
          match env.urlParse c.Proxy with
          | Except.error err => Outcome.error err
          | Except.ok u =>
            if u.Host = "" then Outcome.error (env.Errorf "Missing protocol (%s)" u)
            else Outcome.ok { server with reverseProxy := some ⟨u⟩ }
        else Outcome.ok server

/-- The method `Server.GetFingerprint`. -/
def Server.GetFingerprint (s : Server) : String := s.fingerprint

/-- The method `Server.authUser`: the Go results `(*ssh.Permissions, error)`
and the server state after the call. -/
def Server.authUser (s : Server) (c : ConnMetadata) (password : String) :
    Option Permissions × Option Error × Server :=
  if s.users.Len = 0 then (none, none, s)
  else
    let n := c.User
    match s.users.Get n with
    | none => (none, some "Invalid authentication for username: %s", s)
    | some user =>
      if user.Pass ≠ password then
        (none, some "Invalid authentication for username: %s", s)
      else
        (none, none, { s with sessions := s.sessions.Set c.SessionID user })

/-- The loop of `Server.AddUser`: compiles the patterns in order, appending to
`authorizedAddrs`, and stops at the first one that does not compile. -/
def compileAddrs (env : Env) : List String → List Regexp → Except Error (List Regexp)
  | [], authorizedAddrs => Except.ok authorizedAddrs
  | addr :: addrs, authorizedAddrs =>
    match env.Compile addr with
    | Except.error err => Except.error err
    | Except.ok authorizedAddr => compileAddrs env addrs (authorizedAddrs ++ [authorizedAddr])

/-- The method `Server.AddUser`: the returned error and the server state
after the call. -/
def Server.AddUser (env : Env) (s : Server) (user pass : String) (addrs : List String) :
    Option Error × Server :=
  match compileAddrs env addrs [] with
  | Except.error err => (some err, s)
  | Except.ok authorizedAddrs =>
    (none, { s with users := s.users.AddUser ⟨user, pass, authorizedAddrs⟩ })

/-- The method `Server.DeleteUser`. -/
def Server.DeleteUser (s : Server) (user : String) : Server :=
  { s with users := s.users.Del user }

/-- The method `Server.ResetUsers`. -/
def Server.ResetUsers (s : Server) (users : List User) : Server :=
  { s with users := s.users.Reset users }

end chserver

/-! ## Example states and environment -/

namespace chserver

open settings

/-- Example registry entry: user "alice" with password "s3cret" and one
pattern. -/
def alice : User := ⟨"alice", "s3cret", [⟨""⟩]⟩

/-- Example server state: the registry holds `alice`, the session store is
empty, no fallback proxy. -/
def aliceServer : Server :=
  ⟨⟨"seed", "", "alice:s3cret", "", false, false, 0, ⟨[]⟩⟩, "fp", none, 0, NewUsers,
    ⟨"SSH-v3-server", [⟨"pub"⟩]⟩, NewUsers.AddUser alice⟩

/-- Example server state with an empty registry and an empty session store. -/
def openServer : Server :=
  ⟨⟨"seed", "", "", "", false, false, 0, ⟨[]⟩⟩, "fp", none, 0, NewUsers,
    ⟨"SSH-v3-server", [⟨"pub"⟩]⟩, NewUserIndex⟩

/-- Example environment: patterns with an unclosed bracket "[" do not compile,
`ParseAuth` splits at the first colon, keys are derived from non-empty seeds,
URLs are read as `scheme://host`. -/
def sampleEnv : Env where
  Compile := fun a =>
    if a = "[" then Except.error "error parsing regexp: missing closing ]" else Except.ok ⟨a⟩
  UserAllowAll := ⟨""⟩
  ParseAuth := fun auth =>
    if ':' ∈ auth.toList then
      (String.mk (auth.toList.takeWhile (fun ch => ch != ':')),
        String.mk ((auth.toList.dropWhile (fun ch => ch != ':')).drop 1))
    else ("", "")
  LoadUsers := fun _ _ => Except.error "no such file"
  GenerateKey := fun seed => if seed = "" then Except.error "no seed" else Except.ok ("key-" ++ seed)
  ParsePrivateKey := fun key => Except.ok ⟨"pub-" ++ key⟩
  FingerprintKey := fun pub => "fp-" ++ pub
  ProtocolVersion := "v3"
  urlParse := fun raw =>
    if raw = "http://example.com" then Except.ok ⟨"http", "", "example.com", "", "", "", ""⟩
    else if raw = "example" then Except.ok ⟨"", "", "", "example", "", "", ""⟩
    else Except.error "parse error"
  Errorf := fun f u => f ++ u.Path

/-- Example configuration: inline credential "alice:s3cret", fallback target
"http://example.com", no auth file. -/
def sampleConfig : Config :=
  ⟨"seed", "", "alice:s3cret", "http://example.com", false, false, 0, ⟨[]⟩⟩

/-- Example request: a plain GET with one header and a query. -/
def sampleRequest : Request :=
  ⟨"GET", ⟨"https", "", "gateway.local", "/index.html", "", "q=1", ""⟩,
    [("Accept", ["text/html"])], "", "gateway.local"⟩

end chserver

/-! ## Facts about the mapping -/

namespace settings

theorem lookup_filter_ne (k key : String) (h : k ≠ key) (l : List (String × User)) :
    (l.filter (fun e => e.1 != key)).lookup k = l.lookup k := by
  induction l with
  | nil => rfl
  | cons e l ih =>
    obtain ⟨a, b⟩ := e
    by_cases ha : a = key
    · subst ha
      have hk : (k == a) = false := by simpa using h
      simp [List.filter, List.lookup, hk, ih]
    · have hf : (a != key) = true := by simpa using ha
      by_cases hka : k = a
      · subst hka
        simp [List.filter, List.lookup, hf]
      · have hk : (k == a) = false := by simpa using hka
        simp [List.filter, List.lookup, hf, hk, ih]

theorem lookup_filter_self (key : String) (l : List (String × User)) :
    (l.filter (fun e => e.1 != key)).lookup key = none := by
  induction l with
  | nil => rfl
  | cons e l ih =>
    obtain ⟨a, b⟩ := e
    by_cases ha : a = key
    · subst ha
      simp [List.filter, ih]
    · have hf : (a != key) = true := by simpa using ha
      have hk : (key == a) = false := by simpa using fun h : key = a => ha h.symm
      simp [List.filter, List.lookup, hf, hk, ih]

theorem Users.Len_eq_zero_iff (u : Users) : u.Len = 0 ↔ u.inner = [] := by
  unfold Users.Len
  rw [List.length_eq_zero, List.dedup_eq_nil, List.map_eq_nil_iff]

theorem Users.Len_NewUsers : NewUsers.Len = 0 := rfl

theorem Users.Get_NewUsers (key : String) : NewUsers.Get key = none := rfl

theorem Users.Len_ne_zero_of_Get (u : Users) (key : String) (x : User)
    (h : u.Get key = some x) : u.Len ≠ 0 := by
  intro h0
  rw [Users.Len_eq_zero_iff] at h0
  simp [Users.Get, h0] at h

theorem Users.Get_Set_self (u : Users) (key : String) (x : User) :
    (u.Set key x).Get key = some x := by
  simp [Users.Get, Users.Set, List.lookup]

theorem Users.Get_Set_of_ne (u : Users) (key k : String) (x : User) (h : k ≠ key) :
    (u.Set key x).Get k = u.Get k := by
  have hk : (k == key) = false := by simpa using h
  simp [Users.Get, Users.Set, List.lookup, hk, lookup_filter_ne k key h]

theorem Users.Get_Del_self (u : Users) (key : String) : (u.Del key).Get key = none := by
  simp [Users.Get, Users.Del, lookup_filter_self]

theorem Users.Get_Del_of_ne (u : Users) (key k : String) (h : k ≠ key) :
    (u.Del key).Get k = u.Get k := by
  simp [Users.Get, Users.Del, lookup_filter_ne k key h]

end settings

/-! ## The authentication gate -/

namespace chserver

open settings

theorem authUser_of_empty (s : Server) (c : ConnMetadata) (password : String)
    (h : s.users.Len = 0) : s.authUser c password = (none, none, s) := by
  simp [Server.authUser, h]

theorem authUser_of_match (s : Server) (c : ConnMetadata) (password : String) (user : User)
    (h : s.users.Get c.User = some user) (hp : user.Pass = password) :
    s.authUser c password
      = (none, none, { s with sessions := s.sessions.Set c.SessionID user }) := by
  have hne : s.users.Len ≠ 0 := Users.Len_ne_zero_of_Get _ _ _ h
  simp [Server.authUser, hne, h, hp]

theorem authUser_of_denied (s : Server) (c : ConnMetadata) (password : String)
    (hne : s.users.Len ≠ 0)
    (h : s.users.Get c.User = none ∨ ∃ user, s.users.Get c.User = some user ∧ user.Pass ≠ password) :
    s.authUser c password = (none, some "Invalid authentication for username: %s", s) := by
  rcases h with h | ⟨user, h, hp⟩
  · simp [Server.authUser, hne, h]
  · simp [Server.authUser, hne, h, hp]

/-- C1: when the registry holds, under the name `n`, a user whose password is
`p`, then `authUser` called with claimed user name `n`, password `p` and
session id `sid` returns a nil error, and afterwards the session store finds
exactly that user under `sid` (the registry is untouched). -/
theorem authUser_grants_and_binds (s : Server) (n p sid : String) (user : User)
    (h : s.users.Get n = some user) (hp : user.Pass = p) :
    (s.authUser ⟨n, sid⟩ p).2.1 = none ∧
    (s.authUser ⟨n, sid⟩ p).2.2.sessions.Get sid = some user ∧
    (s.authUser ⟨n, sid⟩ p).2.2.users = s.users := by
  rw [authUser_of_match s ⟨n, sid⟩ p user h hp]
  exact ⟨rfl, Users.Get_Set_self _ _ _, rfl⟩

theorem authUser_grants_and_binds_witness :
    aliceServer.users.Get "alice" = some alice ∧ alice.Pass = "s3cret" ∧
    (aliceServer.authUser ⟨"alice", "sid1"⟩ "s3cret").2.1 = none ∧
    (aliceServer.authUser ⟨"alice", "sid1"⟩ "s3cret").2.2.sessions.Get "sid1" = some alice ∧
    (aliceServer.authUser ⟨"alice", "sid1"⟩ "s3cret").2.2.users = aliceServer.users :=
  ⟨by decide, by decide,
    authUser_grants_and_binds aliceServer "alice" "s3cret" "sid1" alice (by decide) (by decide)⟩

/-- C2: with a non-empty registry, when the claimed user name is not
registered or the registered password differs from the supplied one,
`authUser` returns a non-nil error and the server state after the call is the
state before it: session store and registry are unchanged, and the lookup of
the session id gives what it gave before. -/
theorem authUser_denies_without_mutation (s : Server) (n pw sid : String)
    (hne : s.users.Len ≠ 0)
    (h : s.users.Get n = none ∨ ∃ user, s.users.Get n = some user ∧ user.Pass ≠ pw) :
    (s.authUser ⟨n, sid⟩ pw).2.1 ≠ none ∧
    (s.authUser ⟨n, sid⟩ pw).2.2 = s ∧
    (s.authUser ⟨n, sid⟩ pw).2.2.sessions = s.sessions ∧
    (s.authUser ⟨n, sid⟩ pw).2.2.users = s.users ∧
    (s.authUser ⟨n, sid⟩ pw).2.2.sessions.Get sid = s.sessions.Get sid := by
  rw [authUser_of_denied s ⟨n, sid⟩ pw hne h]
  exact ⟨by simp, rfl, rfl, rfl, rfl⟩

theorem authUser_denies_without_mutation_witness :
    aliceServer.users.Len ≠ 0 ∧
    (aliceServer.users.Get "alice" = none ∨
      ∃ user, aliceServer.users.Get "alice" = some user ∧ user.Pass ≠ "wrong") ∧
    (aliceServer.authUser ⟨"alice", "sid2"⟩ "wrong").2.1 ≠ none ∧
    (aliceServer.authUser ⟨"alice", "sid2"⟩ "wrong").2.2 = aliceServer ∧
    (aliceServer.authUser ⟨"alice", "sid2"⟩ "wrong").2.2.sessions = aliceServer.sessions ∧
    (aliceServer.authUser ⟨"alice", "sid2"⟩ "wrong").2.2.users = aliceServer.users ∧
    (aliceServer.authUser ⟨"alice", "sid2"⟩ "wrong").2.2.sessions.Get "sid2"
      = aliceServer.sessions.Get "sid2" :=
  ⟨by decide, Or.inr ⟨alice, by decide, by decide⟩,
    authUser_denies_without_mutation aliceServer "alice" "wrong" "sid2" (by decide)
      (Or.inr ⟨alice, by decide, by decide⟩)⟩

/-- C3: with an empty registry `authUser` returns a nil error for every claimed
user name, password and session id, and the server state (so the session
store) is unchanged; if the session store was empty before, the lookup of the
session id finds nothing. -/
theorem authUser_open_mode (s : Server) (n pw sid : String) (h : s.users.Len = 0) :
    (s.authUser ⟨n, sid⟩ pw).2.1 = none ∧
    (s.authUser ⟨n, sid⟩ pw).2.2 = s ∧
    (s.authUser ⟨n, sid⟩ pw).2.2.sessions = s.sessions ∧
    (s.sessions = NewUsers → (s.authUser ⟨n, sid⟩ pw).2.2.sessions.Get sid = none) := by
  rw [authUser_of_empty s ⟨n, sid⟩ pw h]
  refine ⟨rfl, rfl, rfl, ?_⟩
  intro he
  simp [he, Users.Get_NewUsers]

theorem authUser_open_mode_witness :
    openServer.users.Len = 0 ∧ openServer.sessions = NewUsers ∧
    (openServer.authUser ⟨"x", "sid"⟩ "y").2.1 = none ∧
    (openServer.authUser ⟨"x", "sid"⟩ "y").2.2.sessions.Get "sid" = none :=
  ⟨by decide, by decide,
    (authUser_open_mode openServer "x" "y" "sid" (by decide)).1,
    (authUser_open_mode openServer "x" "y" "sid" (by decide)).2.2.2 (by decide)⟩

end chserver

namespace chserver

open settings

/-- C5: the denial of `authUser` does not tell which half of the credentials
was wrong: any two denied attempts (registry non-empty; user name unknown, or
known with another password), on the same or on different server states and
with any supplied passwords, return the same non-nil error message. -/
theorem authUser_denial_message_uniform (s₁ s₂ : Server) (c₁ c₂ : ConnMetadata)
    (pw₁ pw₂ : String) (hne₁ : s₁.users.Len ≠ 0) (hne₂ : s₂.users.Len ≠ 0)
    (h₁ : s₁.users.Get c₁.User = none ∨
      ∃ user, s₁.users.Get c₁.User = some user ∧ user.Pass ≠ pw₁)
    (h₂ : s₂.users.Get c₂.User = none ∨
      ∃ user, s₂.users.Get c₂.User = some user ∧ user.Pass ≠ pw₂) :
    (s₁.authUser c₁ pw₁).2.1 = (s₂.authUser c₂ pw₂).2.1 ∧ (s₁.authUser c₁ pw₁).2.1 ≠ none := by
  rw [authUser_of_denied s₁ c₁ pw₁ hne₁ h₁, authUser_of_denied s₂ c₂ pw₂ hne₂ h₂]
  exact ⟨rfl, by simp⟩

theorem authUser_denial_message_uniform_witness :
    aliceServer.users.Get "mallory" = none ∧
    (∃ user, aliceServer.users.Get "alice" = some user ∧ user.Pass ≠ "wrong") ∧
    (aliceServer.authUser ⟨"mallory", "sid3"⟩ "s3cret").2.1
      = (aliceServer.authUser ⟨"alice", "sid2"⟩ "wrong").2.1 ∧
    (aliceServer.authUser ⟨"mallory", "sid3"⟩ "s3cret").2.1 ≠ none :=
  ⟨by decide, ⟨alice, by decide, by decide⟩,
    authUser_denial_message_uniform aliceServer aliceServer ⟨"mallory", "sid3"⟩
      ⟨"alice", "sid2"⟩ "s3cret" "wrong" (by decide) (by decide) (Or.inl (by decide))
      (Or.inr ⟨alice, by decide, by decide⟩)⟩

/-- C6: evaluation at a denied attempt (registry holding alice with password
"s3cret", claimed user "alice", password "wrong"): the error message is the
literal text ending in the format verb "%s"; it is not the text with the
claimed user name "alice" in the verb's place. -/
theorem authUser_error_message_not_interpolated :
    (aliceServer.authUser ⟨"alice", "sid2"⟩ "wrong").2.1
      = some "Invalid authentication for username: %s" ∧
    (aliceServer.authUser ⟨"alice", "sid2"⟩ "wrong").2.1
      ≠ some ("Invalid authentication for username: " ++ "alice") := by
  decide

end chserver

/-! ## Administrative operations on the registry -/

namespace settings

theorem mem_keys_Set (u : Users) (key k : String) (x : User) :
    k ∈ (u.Set key x).inner.map Prod.fst ↔ k = key ∨ k ∈ u.inner.map Prod.fst := by
  simp only [Users.Set, List.map_cons, List.mem_cons, List.mem_map, List.mem_filter]
  constructor
  · rintro (h | ⟨e, ⟨he, _⟩, rfl⟩)
    · exact Or.inl h
    · exact Or.inr ⟨e, he, rfl⟩
  · rintro (h | ⟨e, he, rfl⟩)
    · exact Or.inl h
    · by_cases hk : e.1 = key
      · exact Or.inl hk
      · exact Or.inr ⟨e, ⟨he, by simpa using hk⟩, rfl⟩

/-- The mapping built by entering `users` in sequence into `m`. -/
theorem mem_keys_foldl_Set (users : List User) (m : Users) (k : String) :
    k ∈ (users.foldl (fun m x => m.Set x.Name x) m).inner.map Prod.fst ↔
      k ∈ m.inner.map Prod.fst ∨ k ∈ users.map User.Name := by
  induction users generalizing m with
  | nil => simp
  | cons x users ih =>
    rw [List.foldl_cons, ih, mem_keys_Set]
    simp only [List.map_cons, List.mem_cons]
    tauto

theorem Get_foldl_Set_of_not_mem (users : List User) (m : Users) (k : String)
    (h : ∀ v ∈ users, v.Name ≠ k) :
    (users.foldl (fun m x => m.Set x.Name x) m).Get k = m.Get k := by
  induction users generalizing m with
  | nil => rfl
  | cons x users ih =>
    rw [List.foldl_cons, ih _ (fun v hv => h v (List.mem_cons_of_mem _ hv))]
    exact Users.Get_Set_of_ne _ _ _ _ (fun hk => h x (List.mem_cons_self _ _) hk.symm)

theorem Users.Len_Reset (u : Users) (users : List User) :
    (u.Reset users).Len = ((users.map User.Name).dedup).length := by
  unfold Users.Len Users.Reset
  rw [← List.card_toFinset, ← List.card_toFinset]
  congr 1
  ext k
  rw [List.mem_toFinset, List.mem_toFinset, mem_keys_foldl_Set]
  simp [NewUsers]

theorem Users.Get_Reset_of_not_mem (u : Users) (users : List User) (k : String)
    (h : k ∉ users.map User.Name) : (u.Reset users).Get k = none := by
  unfold Users.Reset
  rw [Get_foldl_Set_of_not_mem users NewUsers k]
  · rfl
  · intro v hv hk
    exact h (List.mem_map.mpr ⟨v, hv, hk⟩)

theorem Users.Get_Reset_last (u : Users) (pre post : List User) (x : User)
    (h : ∀ v ∈ post, v.Name ≠ x.Name) : (u.Reset (pre ++ x :: post)).Get x.Name = some x := by
  unfold Users.Reset
  rw [List.foldl_append, List.foldl_cons, Get_foldl_Set_of_not_mem post _ x.Name h]
  exact Users.Get_Set_self _ _ _

theorem mem_keys_of_lookup (l : List (String × User)) (k : String) (x : User)
    (h : l.lookup k = some x) : k ∈ l.map Prod.fst := by
  induction l with
  | nil => simp at h
  | cons e l ih =>
    obtain ⟨a, b⟩ := e
    by_cases hk : k = a
    · simp [hk]
    · have hb : (k == a) = false := by simpa using hk
      simp only [List.lookup, hb] at h
      exact List.mem_cons_of_mem _ (ih h)

theorem Users.Len_Del_of_only (u : Users) (key : String) (x : User) (h1 : u.Len = 1)
    (h : u.Get key = some x) : (u.Del key).Len = 0 := by
  rw [Users.Len_eq_zero_iff]
  unfold Users.Len at h1
  obtain ⟨a, ha⟩ := List.length_eq_one.mp h1
  have hall : ∀ k ∈ u.inner.map Prod.fst, k = a := by
    intro k hk
    have : k ∈ (u.inner.map Prod.fst).dedup := List.mem_dedup.mpr hk
    rw [ha] at this
    simpa using this
  have hkey : key = a := hall key (mem_keys_of_lookup _ _ _ h)
  simp only [Users.Del, List.filter_eq_nil_iff]
  intro e he
  have : e.1 = a := hall e.1 (List.mem_map.mpr ⟨e, he, rfl⟩)
  simp [this, hkey]

end settings

namespace chserver

open settings

theorem compileAddrs_of_invalid (env : Env) (addrs : List String) (acc : List Regexp)
    (h : ∃ a ∈ addrs, ∃ e, env.Compile a = Except.error e) :
    ∃ e, compileAddrs env addrs acc = Except.error e := by
  induction addrs generalizing acc with
  | nil => simp at h
  | cons addr addrs ih =>
    obtain ⟨a, ha, e, he⟩ := h
    unfold compileAddrs
    cases hc : env.Compile addr with
    | error err => exact ⟨err, rfl⟩
    | ok re =>
      rcases List.mem_cons.mp ha with rfl | hmem
      · rw [hc] at he
        cases he
      · exact ih _ ⟨a, hmem, e, he⟩

/-- C4: when at least one of the pattern strings does not compile, wherever it
stands in the sequence, `Server.AddUser` returns an error and the server state
after the call is the state before it: the registry has the same count and
every lookup, also of the given name, gives what it gave before. -/
theorem AddUser_invalid_pattern_no_change (env : Env) (s : Server) (user pass : String)
    (addrs : List String) (h : ∃ a ∈ addrs, ∃ e, env.Compile a = Except.error e) :
    (∃ e, (s.AddUser env user pass addrs).1 = some e) ∧
    (s.AddUser env user pass addrs).2 = s ∧
    (s.AddUser env user pass addrs).2.users.Len = s.users.Len ∧
    ∀ k, (s.AddUser env user pass addrs).2.users.Get k = s.users.Get k := by
  obtain ⟨e, he⟩ := compileAddrs_of_invalid env addrs [] h
  have hr : s.AddUser env user pass addrs = (some e, s) := by
    simp [Server.AddUser, he]
  rw [hr]
  exact ⟨⟨e, rfl⟩, rfl, rfl, fun _ => rfl⟩

theorem AddUser_invalid_pattern_no_change_witness :
    (∃ a ∈ ["^10\\.", "["], ∃ e, sampleEnv.Compile a = Except.error e) ∧
    (∃ e, (aliceServer.AddUser sampleEnv "bob" "pw" ["^10\\.", "["]).1 = some e) ∧
    (aliceServer.AddUser sampleEnv "bob" "pw" ["^10\\.", "["]).2 = aliceServer ∧
    (aliceServer.AddUser sampleEnv "bob" "pw" ["^10\\.", "["]).2.users.Len = 1 ∧
    (aliceServer.AddUser sampleEnv "bob" "pw" ["^10\\.", "["]).2.users.Get "bob" = none :=
  have h : ∃ a ∈ ["^10\\.", "["], ∃ e, sampleEnv.Compile a = Except.error e :=
    ⟨"[", by decide, "error parsing regexp: missing closing ]", rfl⟩
  have t := AddUser_invalid_pattern_no_change sampleEnv aliceServer "bob" "pw" ["^10\\.", "["] h
  ⟨h, t.1, t.2.1, t.2.2.1.trans (by decide), (t.2.2.2 "bob").trans (by decide)⟩

end chserver

namespace chserver

open settings

/-- C7, as stated, fails: resetting to two users who share the name "alice"
leaves one entry (count 1, not 2), and the lookup of "alice" does not return
the credentials of the first of them. -/
theorem ResetUsers_duplicate_names_counterexample :
    ¬ ((∀ x ∈ [(⟨"alice", "a", []⟩ : User), ⟨"alice", "b", []⟩],
          ((openServer.ResetUsers [⟨"alice", "a", []⟩, ⟨"alice", "b", []⟩]).users.Get x.Name).map
              (fun y => (y.Name, y.Pass)) = some (x.Name, x.Pass)) ∧
        (openServer.ResetUsers [⟨"alice", "a", []⟩, ⟨"alice", "b", []⟩]).users.Len
          = [(⟨"alice", "a", []⟩ : User), ⟨"alice", "b", []⟩].length) := by
  decide

/-- C7 (amended): after `Server.ResetUsers U`, whatever the registry held
before, (1) a name borne by no user of `U` is not found; (2) a user of `U`
after whom no user of the same name follows in `U` is found under its name,
with all its fields; (3) the count is the number of distinct names in `U`;
(4) when the names in `U` are pairwise distinct, every user of `U` is found
under its name and the count is the length of `U`. -/
theorem ResetUsers_lookup_and_count (s : Server) (U : List User) :
    (∀ n, n ∉ U.map User.Name → (s.ResetUsers U).users.Get n = none) ∧
    (∀ pre x post, U = pre ++ x :: post → (∀ v ∈ post, v.Name ≠ x.Name) →
      (s.ResetUsers U).users.Get x.Name = some x) ∧
    (s.ResetUsers U).users.Len = ((U.map User.Name).dedup).length ∧
    ((U.map User.Name).Nodup →
      (∀ x ∈ U, (s.ResetUsers U).users.Get x.Name = some x) ∧
      (s.ResetUsers U).users.Len = U.length) := by
  have hlast : ∀ pre x post, U = pre ++ x :: post → (∀ v ∈ post, v.Name ≠ x.Name) →
      (s.ResetUsers U).users.Get x.Name = some x := by
    intro pre x post hU hpost
    subst hU
    exact Users.Get_Reset_last s.users pre post x hpost
  refine ⟨fun n hn => Users.Get_Reset_of_not_mem s.users U n hn, hlast,
    Users.Len_Reset s.users U, fun hnd => ⟨?_, ?_⟩⟩
  · intro x hx
    obtain ⟨pre, post, hU⟩ := List.append_of_mem hx
    refine hlast pre x post hU ?_
    intro v hv hvx
    rw [hU, List.map_append, List.map_cons] at hnd
    have hnd2 := (List.nodup_append.mp hnd).2.1
    exact (List.nodup_cons.mp hnd2).1 (List.mem_map.mpr ⟨v, hv, hvx⟩)
  · show (s.users.Reset U).Len = U.length
    rw [Users.Len_Reset, hnd.dedup, List.length_map]

theorem ResetUsers_lookup_and_count_witness :
    "carol" ∉ [alice, (⟨"bob", "pw", []⟩ : User)].map User.Name ∧
    ([alice, (⟨"bob", "pw", []⟩ : User)].map User.Name).Nodup ∧
    (aliceServer.ResetUsers [alice, ⟨"bob", "pw", []⟩]).users.Get "carol" = none ∧
    (aliceServer.ResetUsers [alice, ⟨"bob", "pw", []⟩]).users.Get "bob" = some ⟨"bob", "pw", []⟩ ∧
    (aliceServer.ResetUsers [alice, ⟨"bob", "pw", []⟩]).users.Len = 2 :=
  have t := ResetUsers_lookup_and_count aliceServer [alice, ⟨"bob", "pw", []⟩]
  ⟨by decide, by decide, t.1 "carol" (by decide),
    (t.2.2.2 (by decide)).1 ⟨"bob", "pw", []⟩ (by decide), (t.2.2.2 (by decide)).2⟩

/-- C10: when the registry holds exactly one user, registered under `n`, then
after `Server.DeleteUser n` the registry is empty and `authUser` returns a nil
error for every claimed user name, password and session id and leaves the
session store as it was; the same holds after `Server.ResetUsers` of the
empty sequence on any state. -/
theorem authUser_open_after_last_user_removed (s : Server) (n : String) (c : ConnMetadata)
    (pw : String) :
    (s.users.Len = 1 → (∃ x, s.users.Get n = some x) →
      (s.DeleteUser n).users.Len = 0 ∧
      ((s.DeleteUser n).authUser c pw).2.1 = none ∧
      ((s.DeleteUser n).authUser c pw).2.2.sessions = s.sessions) ∧
    ((s.ResetUsers []).users.Len = 0 ∧
      ((s.ResetUsers []).authUser c pw).2.1 = none ∧
      ((s.ResetUsers []).authUser c pw).2.2.sessions = s.sessions) := by
  constructor
  · rintro h1 ⟨x, hx⟩
    have h0 : (s.DeleteUser n).users.Len = 0 := Users.Len_Del_of_only s.users n x h1 hx
    rw [authUser_of_empty _ c pw h0]
    exact ⟨h0, rfl, rfl⟩
  · have h0 : (s.ResetUsers []).users.Len = 0 := rfl
    rw [authUser_of_empty _ c pw h0]
    exact ⟨h0, rfl, rfl⟩

theorem authUser_open_after_last_user_removed_witness :
    aliceServer.users.Len = 1 ∧ (∃ x, aliceServer.users.Get "alice" = some x) ∧
    (aliceServer.authUser ⟨"alice", "sid2"⟩ "wrong").2.1 ≠ none ∧
    ((aliceServer.DeleteUser "alice").authUser ⟨"alice", "sid2"⟩ "wrong").2.1 = none ∧
    ((aliceServer.DeleteUser "alice").authUser ⟨"alice", "sid2"⟩ "wrong").2.2.sessions
      = aliceServer.sessions :=
  ⟨by decide, ⟨alice, by decide⟩, by decide,
    ((authUser_open_after_last_user_removed aliceServer "alice" ⟨"alice", "sid2"⟩ "wrong").1
      (by decide) ⟨alice, by decide⟩).2⟩

end chserver

/-! ## Construction of the server -/

namespace chserver

open settings

/-- The registry built by `NewServer` from the inline credential alone. -/
theorem NewServer_users (env : Env) (c : Config) (s : Server) (hfile : c.AuthFile = "")
    (h : NewServer env c = Outcome.ok s) :
    s.users =
      if c.Auth ≠ "" then
        if (env.ParseAuth c.Auth).1 ≠ "" then
          NewUserIndex.AddUser
            ⟨(env.ParseAuth c.Auth).1, (env.ParseAuth c.Auth).2, [env.UserAllowAll]⟩
        else NewUserIndex
      else NewUserIndex := by
  unfold NewServer at h
  simp only [hfile, ne_eq, not_true_eq_false, if_false] at h
  cases hk : env.GenerateKey c.KeySeed with
  | error e => simp [hk] at h
  | ok key =>
    cases hp : env.ParsePrivateKey key with
    | error e => simp [hk, hp] at h
    | ok priv =>
      simp only [hk, hp] at h
      by_cases hproxy : c.Proxy = ""
      · simp only [hproxy, not_true_eq_false, if_false, Outcome.ok.injEq] at h
        rw [← h]
      · simp only [hproxy, not_false_eq_true, if_true] at h
        cases hu : env.urlParse c.Proxy with
        | error e => simp [hu] at h
        | ok u =>
          simp only [hu] at h
          by_cases hh : u.Host = ""
          · simp [hh] at h
          · simp only [hh, if_false, Outcome.ok.injEq] at h
            rw [← h]

/-- The fallback proxy installed by `NewServer` when a target is configured. -/
theorem NewServer_reverseProxy (env : Env) (c : Config) (s : Server)
    (h : NewServer env c = Outcome.ok s) (hproxy : c.Proxy ≠ "") :
    ∃ u, env.urlParse c.Proxy = Except.ok u ∧ u.Host ≠ "" ∧ s.reverseProxy = some ⟨u⟩ := by
  unfold NewServer at h
  cases hl : (if c.AuthFile ≠ "" then env.LoadUsers NewUserIndex c.AuthFile
      else Except.ok NewUserIndex) with
  | error e => simp [hl] at h
  | ok users1 =>
    simp only [hl] at h
    cases hk : env.GenerateKey c.KeySeed with
    | error e => simp [hk] at h
    | ok key =>
      cases hp : env.ParsePrivateKey key with
      | error e => simp [hk, hp] at h
      | ok priv =>
        simp only [hk, hp, hproxy, ne_eq, not_false_eq_true, if_true] at h
        cases hu : env.urlParse c.Proxy with
        | error e => simp [hu] at h
        | ok u =>
          simp only [hu] at h
          by_cases hh : u.Host = ""
          · simp [hh] at h
          · simp only [hh, if_false, Outcome.ok.injEq] at h
            exact ⟨u, rfl, hh, by rw [← h]⟩

/-- When the registry is built from the inline credential alone, key
derivation succeeds and the fallback target is absent or has a host,
`NewServer` returns a server. -/
theorem NewServer_ok (env : Env) (c : Config) (key : String) (priv : Signer)
    (hfile : c.AuthFile = "") (hk : env.GenerateKey c.KeySeed = Except.ok key)
    (hp : env.ParsePrivateKey key = Except.ok priv)
    (hproxy : c.Proxy = "" ∨ ∃ u, env.urlParse c.Proxy = Except.ok u ∧ u.Host ≠ "") :
    ∃ s, NewServer env c = Outcome.ok s := by
  unfold NewServer
  simp only [hfile, ne_eq, not_true_eq_false, if_false, hk, hp]
  rcases hproxy with hproxy | ⟨u, hu, hh⟩
  · simp [hproxy]
  · by_cases hpe : c.Proxy = ""
    · simp [hpe]
    · simp [hpe, hu, hh]

end chserver

namespace chserver

open settings

/-- C8: when `NewServer` returns a server for a configuration with a fallback
target, the target parses to a URL `u` and the director of the installed
reverse proxy turns every request `r` into one with `URL.Scheme = u.Scheme`,
`URL.Host = u.Host` and `Host = u.Host`, whose method, path, query, headers
and body (and the remaining URL fields) are those of `r`. -/
theorem NewServer_director_rewrites_destination (env : Env) (c : Config) (s : Server)
    (h : NewServer env c = Outcome.ok s) (hproxy : c.Proxy ≠ "") :
    ∃ u p, env.urlParse c.Proxy = Except.ok u ∧ s.reverseProxy = some p ∧
      ∀ r : Request,
        (p.Director r).URL.Scheme = u.Scheme ∧
        (p.Director r).URL.Host = u.Host ∧
        (p.Director r).Host = u.Host ∧
        (p.Director r).Method = r.Method ∧
        (p.Director r).URL.Path = r.URL.Path ∧
        (p.Director r).URL.RawQuery = r.URL.RawQuery ∧
        (p.Director r).Header = r.Header ∧
        (p.Director r).Body = r.Body ∧
        (p.Director r).URL.Opaque = r.URL.Opaque ∧
        (p.Director r).URL.RawPath = r.URL.RawPath ∧
        (p.Director r).URL.Fragment = r.URL.Fragment := by
  obtain ⟨u, hu, _, hrp⟩ := NewServer_reverseProxy env c s h hproxy
  exact ⟨u, ⟨u⟩, hu, hrp, fun r => ⟨rfl, rfl, rfl, rfl, rfl, rfl, rfl, rfl, rfl, rfl, rfl⟩⟩

theorem NewServer_director_rewrites_destination_witness :
    NewServer sampleEnv sampleConfig
      = Outcome.ok ⟨sampleConfig, "fp-pub-key-seed",
          some ⟨⟨"http", "", "example.com", "", "", "", ""⟩⟩, 0, NewUsers,
          ⟨"SSH-v3-server", [⟨"pub-key-seed"⟩]⟩, NewUsers.AddUser alice⟩ ∧
    sampleConfig.Proxy ≠ "" ∧
    (ReverseProxy.mk ⟨"http", "", "example.com", "", "", "", ""⟩).Director sampleRequest
      = ⟨"GET", ⟨"http", "", "example.com", "/index.html", "", "q=1", ""⟩,
          [("Accept", ["text/html"])], "", "example.com"⟩ ∧
    ∃ u p, sampleEnv.urlParse sampleConfig.Proxy = Except.ok u ∧
      (some (ReverseProxy.mk ⟨"http", "", "example.com", "", "", "", ""⟩)) = some p ∧
      ∀ r : Request,
        (p.Director r).URL.Scheme = u.Scheme ∧
        (p.Director r).URL.Host = u.Host ∧
        (p.Director r).Host = u.Host ∧
        (p.Director r).Method = r.Method ∧
        (p.Director r).URL.Path = r.URL.Path ∧
        (p.Director r).URL.RawQuery = r.URL.RawQuery ∧
        (p.Director r).Header = r.Header ∧
        (p.Director r).Body = r.Body ∧
        (p.Director r).URL.Opaque = r.URL.Opaque ∧
        (p.Director r).URL.RawPath = r.URL.RawPath ∧
        (p.Director r).URL.Fragment = r.URL.Fragment :=
  ⟨by decide, by decide, by decide,
    NewServer_director_rewrites_destination sampleEnv sampleConfig
      ⟨sampleConfig, "fp-pub-key-seed",
        some ⟨⟨"http", "", "example.com", "", "", "", ""⟩⟩, 0, NewUsers,
        ⟨"SSH-v3-server", [⟨"pub-key-seed"⟩]⟩, NewUsers.AddUser alice⟩
      (by decide) (by decide)⟩

/-- C9: for a configuration without auth file and with a non-empty inline
credential, for which key derivation succeeds, every server returned by
`NewServer` has the registry given by the parsed pair: empty when the parsed
name is empty; otherwise exactly one entry, under the parsed name, with that
name, that password and the single allow-all pattern.  `NewServer` does
return a server when the fallback target is absent or parses to a URL with a
host. -/
theorem NewServer_inline_credential_registry (env : Env) (c : Config) (key : String)
    (priv : Signer) (hfile : c.AuthFile = "") (hauth : c.Auth ≠ "")
    (hk : env.GenerateKey c.KeySeed = Except.ok key)
    (hp : env.ParsePrivateKey key = Except.ok priv) :
    (∀ s, NewServer env c = Outcome.ok s →
      ((env.ParseAuth c.Auth).1 = "" → s.users = NewUserIndex ∧ s.users.Len = 0) ∧
      ((env.ParseAuth c.Auth).1 ≠ "" →
        s.users.inner = [((env.ParseAuth c.Auth).1,
          ⟨(env.ParseAuth c.Auth).1, (env.ParseAuth c.Auth).2, [env.UserAllowAll]⟩)] ∧
        s.users.Len = 1 ∧
        s.users.Get (env.ParseAuth c.Auth).1
          = some ⟨(env.ParseAuth c.Auth).1, (env.ParseAuth c.Auth).2, [env.UserAllowAll]⟩ ∧
        ∀ k, k ≠ (env.ParseAuth c.Auth).1 → s.users.Get k = none)) ∧
    ((c.Proxy = "" ∨ ∃ u, env.urlParse c.Proxy = Except.ok u ∧ u.Host ≠ "") →
      ∃ s, NewServer env c = Outcome.ok s) := by
  refine ⟨fun s h => ?_, NewServer_ok env c key priv hfile hk hp⟩
  have hu := NewServer_users env c s hfile h
  rw [if_pos hauth] at hu
  constructor
  · intro hn
    rw [if_neg (not_not.mpr hn)] at hu
    exact ⟨hu, by rw [hu]; rfl⟩
  · intro hn
    rw [if_pos hn] at hu
    rw [hu]
    refine ⟨rfl, by simp [Users.Len, Users.AddUser, Users.Set, NewUserIndex, NewUsers],
      Users.Get_Set_self _ _ _, fun k hkn => ?_⟩
    rw [Users.AddUser, Users.Get_Set_of_ne _ _ _ _ hkn]
    rfl

theorem NewServer_inline_credential_registry_witness :
    sampleConfig.AuthFile = "" ∧ sampleConfig.Auth ≠ "" ∧
    sampleEnv.ParseAuth sampleConfig.Auth = ("alice", "s3cret") ∧
    ∃ s, NewServer sampleEnv sampleConfig = Outcome.ok s ∧
      s.users.inner = [("alice", ⟨"alice", "s3cret", [sampleEnv.UserAllowAll]⟩)] ∧
      s.users.Len = 1 :=
  have t := NewServer_inline_credential_registry sampleEnv sampleConfig "key-seed"
    ⟨"pub-key-seed"⟩ (by decide) (by decide) rfl rfl
  have hs := t.2 (Or.inr ⟨⟨"http", "", "example.com", "", "", "", ""⟩, rfl, by decide⟩)
  ⟨by decide, by decide, by decide,
    hs.elim fun s h => ⟨s, h, ((t.1 s h).2 (by decide)).1, ((t.1 s h).2 (by decide)).2.1⟩⟩

end chserver
